import Mathlib

/-!
Shallow embedding of the webm-meta-lite scanning engine.

Conventions of the embedding:
* JavaScript byte buffers (`Uint8Array` / `DataView`) are `List Nat`; a stored
  byte is always reduced mod 256, as a `Uint8Array` cell would be.
* JavaScript numbers holding offsets, sizes and ids are `Int` / `Nat`.
  Offset and size arithmetic stays far below 2^53, where binary64 integer
  arithmetic is exact, but the source's `val = val * 256 + b` accumulation
  loops can exceed 2^53 and then round: every such loop is modelled with a
  per-step round-to-nearest-even (`fl64`, the binary64 rounding of a
  non-negative integer; the multiplication by 256 is a power-of-two scaling
  and never rounds).  Native DataView reads (getUint32, getInt16, getFloat32,
  getFloat64) assemble their bits exactly and are modelled with the exact
  accumulator `readBytesBE`.  The VINT "unknown size" sentinel is the
  integer -1, exactly as in the source (`VINT_UNKNOWN_MARKER`).
* JavaScript numbers holding decoded floats are `JSFloat`: an exact rational
  plus NaN / ±Infinity.  IEEE-754 *decoding* of 4/8-byte payloads is exact and
  is modelled exactly; the subsequent arithmetic (`x * scale / 1e9`) is
  modelled with exact rationals, whereas binary64 rounds.  Rounding preserves
  sign and zeroness, and every concrete value used in a theorem below is
  checked to be exact in binary64 as well, so the statements proved are
  insensitive to this difference.
* Thrown exceptions are the `Except JsErr` monad, with one constructor per
  distinct throw site kind; `try`/`catch` is an explicit match on the result.
* The sequentially awaited async reads have no concurrency, so `Reader.read`
  is a pure function of offset and length.
* Bounded walk loops recurse structurally on a fuel argument that is
  instantiated with the byte distance the loop can cover.  Every loop body
  advances its cursor by `headerSize + size >= 1` per iteration (proved below
  as the claim-C9 theorem), so this fuel is never exhausted before the loop
  condition turns false, and the fuel-0 fallthrough returns the same value
  the exited loop would.
* `readString`'s UTF-8 replacement decoding is kept as the raw fetched bytes:
  the decoded text is a pure function of those bytes and no claim depends on
  its character content.
-/

unseal Rat.mul Rat.inv Rat.add Rat.sub

set_option maxRecDepth 8000

inductive JsErr where
  | rangeError
  | invalidVint
  | invalidId
  | invalidFloatSize
  | segmentNotFound
deriving DecidableEq, Repr

instance {ε α : Type} [DecidableEq ε] [DecidableEq α] : DecidableEq (Except ε α) :=
  fun a b =>
    match a, b with
    | .error e1, .error e2 =>
      if h : e1 = e2 then .isTrue (congrArg Except.error h)
      else .isFalse (fun hc => h (Except.error.inj hc))
    | .error _, .ok _ => .isFalse (fun hc => Except.noConfusion hc)
    | .ok _, .error _ => .isFalse (fun hc => Except.noConfusion hc)
    | .ok a1, .ok a2 =>
      if h : a1 = a2 then .isTrue (congrArg Except.ok h)
      else .isFalse (fun hc => h (Except.ok.inj hc))

/-- JavaScript number produced by float decoding: exact rational, NaN or ±∞. -/
inductive JSFloat where
  | num (q : ℚ)
  | nan
  | posInf
  | negInf
deriving DecidableEq, Repr

/-- DataView.getUint8: bounds-checked byte fetch (bytes are stored mod 256). -/
def getUint8 (w : List Nat) (i : Int) : Except JsErr Nat :=
  if 0 ≤ i ∧ i < (w.length : Int) then .ok (w.getD i.toNat 0 % 256) else .error .rangeError

/-- Bit length of a natural number (0 for 0), driven by a fuel argument that
is always sufficient since the value at least halves each step. -/
def bitLenAux : Nat → Nat → Nat
  | 0, _ => 0
  | fuel + 1, n => if n = 0 then 0 else bitLenAux fuel (n / 2) + 1

def bitLen (n : Nat) : Nat := bitLenAux n n

/-- Round a non-negative integer to the nearest binary64 value (ties to
even).  Integers below 2^53 are exact; above, the unit in the last place is
2^(bitLen n - 53). -/
def fl64 (n : Nat) : Nat :=
  if n < 2 ^ 53 then n
  else
    let ulp := 2 ^ (bitLen n - 53)
    let q := n / ulp
    let r := n % ulp
    if r * 2 < ulp then q * ulp
    else if ulp < r * 2 then (q + 1) * ulp
    else (if q % 2 = 0 then q else q + 1) * ulp

/-- Big-endian accumulation of `count` bytes starting at `idx` onto `acc`,
the shape of every `val = val * 256 + view.getUint8(i)` loop in the source.
Each step performs the JavaScript binary64 addition: `acc * 256` is a
power-of-two scaling of a representable value and is exact, then adding the
byte rounds once, modelled by `fl64` of the exact integer sum. -/
def accumBytes (w : List Nat) : Nat → Int → Nat → Except JsErr Nat
  | 0, _, acc => .ok acc
  | count + 1, idx, acc =>
    match getUint8 w idx with
    | .error e => .error e
    | .ok b => accumBytes w count (idx + 1) (fl64 (acc * 256 + b))

/-- Exact big-endian assembly of `count` bytes, used only to model the
native DataView multi-byte reads (getUint32, getInt16, getFloat32/64),
which assemble their bit patterns exactly rather than via JS arithmetic. -/
def readBytesBE (w : List Nat) : Nat → Int → Nat → Except JsErr Nat
  | 0, _, acc => .ok acc
  | count + 1, idx, acc =>
    match getUint8 w idx with
    | .error e => .error e
    | .ok b => readBytesBE w count (idx + 1) (acc * 256 + b)

/-- DataView.getUint32(i, false): 4 bytes, big endian. -/
def getUint32BE (w : List Nat) (i : Int) : Except JsErr Nat := readBytesBE w 4 i 0

/-- DataView.getInt16(i, false): 2 bytes big endian, two's complement. -/
def getInt16BE (w : List Nat) (i : Int) : Except JsErr Int :=
  match readBytesBE w 2 i 0 with
  | .error e => .error e
  | .ok v => .ok (if v < 32768 then (v : Int) else (v : Int) - 65536)

structure VintRes where
  value : Int
  length : Int
deriving DecidableEq, Repr

structure IdRes where
  value : Nat
  length : Int
deriving DecidableEq, Repr

/-- constants.ts: "Unknown Size" sentinel for VINT parsing. -/
def VINT_UNKNOWN_MARKER : Int := -1

/-- Tail of readVint: accumulate the remaining `len - 1` bytes onto the
masked first byte, then compare against `maxVal`.  The source computes
`maxVal = Math.pow(2, 7 * length) - 1` in binary64, so maxVal is the ROUNDED
value fl64(2^(7·len) − 1): exact for len ≤ 7, but 2^56 for len = 8, where
the rounded accumulation of near-maximal content also lands. -/
def readVintFinish (w : List Nat) (offset : Int) (len : Nat) (first : Nat) :
    Except JsErr VintRes :=
  match accumBytes w (len - 1) (offset + 1) first with
  | .error e => .error e
  | .ok raw =>
    if raw = fl64 (2 ^ (7 * len) - 1) then .ok ⟨VINT_UNKNOWN_MARKER, (len : Int)⟩
    else .ok ⟨(raw : Int), (len : Int)⟩

/-- decoder.ts readVint.  The masks `byte1 & 0x7F`, `byte1 & 0x3F`, ... are
written as `% 0x80`, `% 0x40`, ...: equal on each branch since the byte is
below 0x100 and at least the branch threshold. -/
def readVint (w : List Nat) (offset : Int) : Except JsErr VintRes :=
  match getUint8 w offset with
  | .error e => .error e
  | .ok byte1 =>
    if 0x80 ≤ byte1 then readVintFinish w offset 1 (byte1 % 0x80)
    else if 0x40 ≤ byte1 then readVintFinish w offset 2 (byte1 % 0x40)
    else if 0x20 ≤ byte1 then readVintFinish w offset 3 (byte1 % 0x20)
    else if 0x10 ≤ byte1 then readVintFinish w offset 4 (byte1 % 0x10)
    else if 0x08 ≤ byte1 then readVintFinish w offset 5 (byte1 % 0x08)
    else if 0x04 ≤ byte1 then readVintFinish w offset 6 (byte1 % 0x04)
    else if 0x02 ≤ byte1 then readVintFinish w offset 7 (byte1 % 0x02)
    else if 0x01 ≤ byte1 then readVintFinish w offset 8 (byte1 % 0x01)
    else .error .invalidVint

/-- Tail of readID: re-read all `len` bytes from `offset`, marker retained. -/
def readIdFinish (w : List Nat) (offset : Int) (len : Nat) : Except JsErr IdRes :=
  match accumBytes w len offset 0 with
  | .error e => .error e
  | .ok v => .ok ⟨v, (len : Int)⟩

/-- decoder.ts readID: same length cascade, marker bit kept in the value. -/
def readID (w : List Nat) (offset : Int) : Except JsErr IdRes :=
  match getUint8 w offset with
  | .error e => .error e
  | .ok byte1 =>
    if 0x80 ≤ byte1 then readIdFinish w offset 1
    else if 0x40 ≤ byte1 then readIdFinish w offset 2
    else if 0x20 ≤ byte1 then readIdFinish w offset 3
    else if 0x10 ≤ byte1 then readIdFinish w offset 4
    else if 0x08 ≤ byte1 then readIdFinish w offset 5
    else if 0x04 ≤ byte1 then readIdFinish w offset 6
    else if 0x02 ≤ byte1 then readIdFinish w offset 7
    else if 0x01 ≤ byte1 then readIdFinish w offset 8
    else .error .invalidId

/-- IEEE-754 binary32 interpretation of a 32-bit big-endian word. -/
def decodeFloat32Bits (bits : Nat) : JSFloat :=
  let s : Nat := bits / 2 ^ 31
  let e : Nat := bits / 2 ^ 23 % 2 ^ 8
  let m : Nat := bits % 2 ^ 23
  if e = 255 then (if m = 0 then (if s = 1 then .negInf else .posInf) else .nan)
  else
    let mag : ℚ := if e = 0 then (m : ℚ) / 2 ^ 149 else ((2 ^ 23 + m : ℕ) : ℚ) * 2 ^ e / 2 ^ 150
    .num (if s = 1 then -mag else mag)

/-- IEEE-754 binary64 interpretation of a 64-bit big-endian word. -/
def decodeFloat64Bits (bits : Nat) : JSFloat :=
  let s : Nat := bits / 2 ^ 63
  let e : Nat := bits / 2 ^ 52 % 2 ^ 11
  let m : Nat := bits % 2 ^ 52
  if e = 2047 then (if m = 0 then (if s = 1 then .negInf else .posInf) else .nan)
  else
    let mag : ℚ :=
      if e = 0 then (m : ℚ) / 2 ^ 1074 else ((2 ^ 52 + m : ℕ) : ℚ) * 2 ^ e / 2 ^ 1075
    .num (if s = 1 then -mag else mag)

/-- decoder.ts readFloat: only 4- and 8-byte payloads are legal. -/
def readFloat (w : List Nat) (offset size : Int) : Except JsErr JSFloat :=
  if size = 4 then
    match readBytesBE w 4 offset 0 with
    | .error e => .error e
    | .ok bits => .ok (decodeFloat32Bits bits)
  else if size = 8 then
    match readBytesBE w 8 offset 0 with
    | .error e => .error e
    | .ok bits => .ok (decodeFloat64Bits bits)
  else .error .invalidFloatSize

/-- TypedArray.subarray / ArrayBuffer.slice index normalisation: negative
indices count from the end, and everything is clamped into `[0, n]`. -/
def jsIndexClamp (n : Nat) (i : Int) : Nat :=
  if i < 0 then ((n : Int) + i).toNat else min i.toNat n

/-- TypedArray.subarray(s, e) seen as a list slice (empty when e ≤ s). -/
def subarrayJS (b : List Nat) (s e : Int) : List Nat :=
  (b.drop (jsIndexClamp b.length s)).take (jsIndexClamp b.length e - jsIndexClamp b.length s)

/-- decoder.ts readString: the UTF-8 payload slice, kept as raw bytes. -/
def readString (w : List Nat) (offset size : Int) : List Nat :=
  subarrayJS w offset (offset + size)

/-- types.ts Reader capability. -/
structure Reader where
  getSize : Int
  read : Int → Int → List Nat

/-- reader.ts createBufferReader: subarray semantics allow short reads at the
tail. -/
def createBufferReader (b : List Nat) : Reader :=
  ⟨(b.length : Int), fun offset length => subarrayJS b offset (offset + length)⟩

/-- scanner.ts readElementHeader result: `{ id, size, headerSize }`. -/
structure ElementHeader where
  id : Nat
  size : Int
  headerSize : Int
deriving DecidableEq, Repr

/-- scanner.ts readElementHeader: fetch up to 12 bytes, decode ID then size. -/
def readElementHeader (r : Reader) (offset : Int) : Except JsErr ElementHeader :=
  let buffer := r.read offset 12
  match readID buffer 0 with
  | .error e => .error e
  | .ok idr =>
    match readVint buffer idr.length with
    | .error e => .error e
    | .ok vr => .ok ⟨idr.value, vr.value, idr.length + vr.length⟩

namespace IDS

def EBML : Nat := 0x1A45DFA3
def SEGMENT : Nat := 0x18538067
def SEEK_HEAD : Nat := 0x114D9B74
def INFO : Nat := 0x1549A966
def TRACKS : Nat := 0x1654AE6B
def CUES : Nat := 0x1C53BB6B
def CLUSTER : Nat := 0x1F43B675
def TIMECODE_SCALE : Nat := 0x2AD7B1
def DURATION : Nat := 0x4489
def MUXING_APP : Nat := 0x4D80
def WRITING_APP : Nat := 0x5741
def TRACK_ENTRY : Nat := 0xAE
def TRACK_NUMBER : Nat := 0xD7
def TRACK_TYPE : Nat := 0x83
def CODEC_ID : Nat := 0x86
def VIDEO : Nat := 0xE0
def PIXEL_WIDTH : Nat := 0xB0
def PIXEL_HEIGHT : Nat := 0xBA
def AUDIO : Nat := 0xE1
def SAMPLING_FREQ : Nat := 0xB5
def CHANNELS : Nat := 0x9F
def TIMECODE : Nat := 0xE7
def CUE_POINT : Nat := 0xBB
def CUE_TIME : Nat := 0xB3
def SIMPLE_BLOCK : Nat := 0xA3
def BLOCK_GROUP : Nat := 0xA0

end IDS

/-- types.ts WebmInfo as accumulated by parseInfo (strings as raw bytes). -/
structure WebmInfo where
  timecodeScale : Nat
  duration : Option JSFloat
  muxingApp : Option (List Nat)
  writingApp : Option (List Nat)
deriving DecidableEq, Repr

/-- The `{ timecodeScale: 1000000 }` object scanHeader starts from. -/
def initInfo : WebmInfo := ⟨1000000, none, none, none⟩

structure VideoMeta where
  width : Option Nat
  height : Option Nat
deriving DecidableEq, Repr

structure AudioMeta where
  sampleRate : Option JSFloat
  channels : Option Nat
deriving DecidableEq, Repr

/-- types.ts WebmTrack as accumulated by parseTrackEntry. -/
structure WebmTrack where
  trackNumber : Option Nat
  trackType : Option Nat
  codecId : Option (List Nat)
  video : Option VideoMeta
  audio : Option AudioMeta
deriving DecidableEq, Repr

/-- scanHeader's return shape `{ info, tracks, cuesOffset }`. -/
structure HeaderScanResult where
  info : WebmInfo
  tracks : List WebmTrack
  cuesOffset : Option Int
deriving DecidableEq, Repr

/-- The `for(i=0;i<elSize;i++) val = val*256 + getUint8(i)` payload decode. -/
def readUIntPayload (w : List Nat) (size : Int) : Except JsErr Nat :=
  accumBytes w size.toNat 0 0

/-- Body of the `Seek` walk in parseSeekHead, accumulating `(seekId, seekPos)`
from 0.  The discarded `readVint(view, 0)` call on the SeekID payload is kept
because its thrown error propagates. -/
def parseSeekEntryLoop (r : Reader) (endO : Int) :
    Nat → Int → Nat × Nat → Except JsErr (Nat × Nat)
  | 0, _, st => .ok st
  | fuel + 1, current, st =>
    if current < endO then
      match readElementHeader r current with
      | .error e => .error e
      | .ok hdr =>
        let content := current + hdr.headerSize
        let next := current + hdr.headerSize + hdr.size
        if hdr.id = 0x53AB then
          let data := r.read content hdr.size
          match readVint data 0 with
          | .error e => .error e
          | .ok _ =>
            match readUIntPayload data hdr.size with
            | .error e => .error e
            | .ok idVal => parseSeekEntryLoop r endO fuel next (idVal, st.2)
        else if hdr.id = 0x53AC then
          let data := r.read content hdr.size
          match readUIntPayload data hdr.size with
          | .error e => .error e
          | .ok posVal => parseSeekEntryLoop r endO fuel next (st.1, posVal)
        else parseSeekEntryLoop r endO fuel next st
    else .ok st

/-- Outer walk of parseSeekHead over `Seek` (0x4DBB) children; the source
reports each entry through a callback, modelled as the ordered pair list. -/
def parseSeekHeadLoop (r : Reader) (endO : Int) :
    Nat → Int → List (Nat × Nat) → Except JsErr (List (Nat × Nat))
  | 0, _, acc => .ok acc
  | fuel + 1, current, acc =>
    if current < endO then
      match readElementHeader r current with
      | .error e => .error e
      | .ok hdr =>
        let content := current + hdr.headerSize
        let next := current + hdr.headerSize + hdr.size
        if hdr.id = 0x4DBB then
          match parseSeekEntryLoop r (content + hdr.size) hdr.size.toNat content (0, 0) with
          | .error e => .error e
          | .ok pair => parseSeekHeadLoop r endO fuel next (acc ++ [pair])
        else parseSeekHeadLoop r endO fuel next acc
    else .ok acc

def parseSeekHead (r : Reader) (offset size : Int) : Except JsErr (List (Nat × Nat)) :=
  parseSeekHeadLoop r (offset + size) size.toNat offset []

/-- Body of parseInfo's bounded child walk. -/
def parseInfoLoop (r : Reader) (endO : Int) :
    Nat → Int → WebmInfo → Except JsErr WebmInfo
  | 0, _, st => .ok st
  | fuel + 1, current, st =>
    if current < endO then
      match readElementHeader r current with
      | .error e => .error e
      | .ok hdr =>
        let content := current + hdr.headerSize
        let next := current + hdr.headerSize + hdr.size
        if hdr.id = IDS.TIMECODE_SCALE then
          match readUIntPayload (r.read content hdr.size) hdr.size with
          | .error e => .error e
          | .ok v => parseInfoLoop r endO fuel next { st with timecodeScale := v }
        else if hdr.id = IDS.DURATION then
          match readFloat (r.read content hdr.size) 0 hdr.size with
          | .error e => .error e
          | .ok f => parseInfoLoop r endO fuel next { st with duration := some f }
        else if hdr.id = IDS.MUXING_APP then
          parseInfoLoop r endO fuel next
            { st with muxingApp := some (readString (r.read content hdr.size) 0 hdr.size) }
        else if hdr.id = IDS.WRITING_APP then
          parseInfoLoop r endO fuel next
            { st with writingApp := some (readString (r.read content hdr.size) 0 hdr.size) }
        else parseInfoLoop r endO fuel next st
    else .ok st

def parseInfo (r : Reader) (offset size : Int) (st : WebmInfo) : Except JsErr WebmInfo :=
  parseInfoLoop r (offset + size) size.toNat offset st

/-- Body of parseVideo's bounded child walk. -/
def parseVideoLoop (r : Reader) (endO : Int) :
    Nat → Int → VideoMeta → Except JsErr VideoMeta
  | 0, _, st => .ok st
  | fuel + 1, current, st =>
    if current < endO then
      match readElementHeader r current with
      | .error e => .error e
      | .ok hdr =>
        let content := current + hdr.headerSize
        let next := current + hdr.headerSize + hdr.size
        if hdr.id = IDS.PIXEL_WIDTH then
          match readUIntPayload (r.read content hdr.size) hdr.size with
          | .error e => .error e
          | .ok v => parseVideoLoop r endO fuel next { st with width := some v }
        else if hdr.id = IDS.PIXEL_HEIGHT then
          match readUIntPayload (r.read content hdr.size) hdr.size with
          | .error e => .error e
          | .ok v => parseVideoLoop r endO fuel next { st with height := some v }
        else parseVideoLoop r endO fuel next st
    else .ok st

def parseVideo (r : Reader) (offset size : Int) : Except JsErr VideoMeta :=
  parseVideoLoop r (offset + size) size.toNat offset ⟨none, none⟩

/-- Body of parseAudio's bounded child walk. -/
def parseAudioLoop (r : Reader) (endO : Int) :
    Nat → Int → AudioMeta → Except JsErr AudioMeta
  | 0, _, st => .ok st
  | fuel + 1, current, st =>
    if current < endO then
      match readElementHeader r current with
      | .error e => .error e
      | .ok hdr =>
        let content := current + hdr.headerSize
        let next := current + hdr.headerSize + hdr.size
        if hdr.id = IDS.SAMPLING_FREQ then
          match readFloat (r.read content hdr.size) 0 hdr.size with
          | .error e => .error e
          | .ok f => parseAudioLoop r endO fuel next { st with sampleRate := some f }
        else if hdr.id = IDS.CHANNELS then
          match readUIntPayload (r.read content hdr.size) hdr.size with
          | .error e => .error e
          | .ok v => parseAudioLoop r endO fuel next { st with channels := some v }
        else parseAudioLoop r endO fuel next st
    else .ok st

def parseAudio (r : Reader) (offset size : Int) : Except JsErr AudioMeta :=
  parseAudioLoop r (offset + size) size.toNat offset ⟨none, none⟩

/-- Body of parseTrackEntry's bounded child walk. -/
def parseTrackEntryLoop (r : Reader) (endO : Int) :
    Nat → Int → WebmTrack → Except JsErr WebmTrack
  | 0, _, st => .ok st
  | fuel + 1, current, st =>
    if current < endO then
      match readElementHeader r current with
      | .error e => .error e
      | .ok hdr =>
        let content := current + hdr.headerSize
        let next := current + hdr.headerSize + hdr.size
        if hdr.id = IDS.TRACK_NUMBER then
          match readUIntPayload (r.read content hdr.size) hdr.size with
          | .error e => .error e
          | .ok v => parseTrackEntryLoop r endO fuel next { st with trackNumber := some v }
        else if hdr.id = IDS.TRACK_TYPE then
          match readUIntPayload (r.read content hdr.size) hdr.size with
          | .error e => .error e
          | .ok v => parseTrackEntryLoop r endO fuel next { st with trackType := some v }
        else if hdr.id = IDS.CODEC_ID then
          parseTrackEntryLoop r endO fuel next
            { st with codecId := some (readString (r.read content hdr.size) 0 hdr.size) }
        else if hdr.id = IDS.VIDEO then
          match parseVideo r content hdr.size with
          | .error e => .error e
          | .ok v => parseTrackEntryLoop r endO fuel next { st with video := some v }
        else if hdr.id = IDS.AUDIO then
          match parseAudio r content hdr.size with
          | .error e => .error e
          | .ok a => parseTrackEntryLoop r endO fuel next { st with audio := some a }
        else parseTrackEntryLoop r endO fuel next st
    else .ok st

def parseTrackEntry (r : Reader) (offset size : Int) : Except JsErr WebmTrack :=
  parseTrackEntryLoop r (offset + size) size.toNat offset ⟨none, none, none, none, none⟩

/-- Body of parseTracks' walk over TrackEntry children. -/
def parseTracksLoop (r : Reader) (endO : Int) :
    Nat → Int → List WebmTrack → Except JsErr (List WebmTrack)
  | 0, _, acc => .ok acc
  | fuel + 1, current, acc =>
    if current < endO then
      match readElementHeader r current with
      | .error e => .error e
      | .ok hdr =>
        let content := current + hdr.headerSize
        let next := current + hdr.headerSize + hdr.size
        if hdr.id = IDS.TRACK_ENTRY then
          match parseTrackEntry r content hdr.size with
          | .error e => .error e
          | .ok t => parseTracksLoop r endO fuel next (acc ++ [t])
        else parseTracksLoop r endO fuel next acc
    else .ok acc

def parseTracks (r : Reader) (offset size : Int) : Except JsErr (List WebmTrack) :=
  parseTracksLoop r (offset + size) size.toNat offset []

/-- The callback scanHeader passes to parseSeekHead, folded over the reported
entries: a Cues SeekID overwrites cuesOffset with segmentStart + seekPos. -/
def applySeekPairs (segmentStart : Int) : Option Int → List (Nat × Nat) → Option Int
  | cues, [] => cues
  | cues, (sid, pos) :: rest =>
    applySeekPairs segmentStart
      (if sid = IDS.CUES then some (segmentStart + (pos : Int)) else cues) rest

/-- One dispatch step of scanHeader's Segment-children walk (the Cluster case
is handled by the walk itself before this is consulted). -/
def dispatchChild (r : Reader) (segmentStart offset : Int) (hdr : ElementHeader)
    (st : HeaderScanResult) : Except JsErr HeaderScanResult :=
  let content := offset + hdr.headerSize
  if hdr.id = IDS.SEEK_HEAD then
    match parseSeekHead r content hdr.size with
    | .error e => .error e
    | .ok pairs => .ok { st with cuesOffset := applySeekPairs segmentStart st.cuesOffset pairs }
  else if hdr.id = IDS.INFO then
    match parseInfo r content hdr.size st.info with
    | .error e => .error e
    | .ok i => .ok { st with info := i }
  else if hdr.id = IDS.TRACKS then
    match parseTracks r content hdr.size with
    | .error e => .error e
    | .ok ts => .ok { st with tracks := st.tracks ++ ts }
  else if hdr.id = IDS.CUES then .ok { st with cuesOffset := some offset }
  else .ok st

/-- scanHeader's walk over the Segment's children: stop at a Cluster, stop
after any element whose size decoded to the unknown sentinel. -/
def scanChildrenLoop (r : Reader) (scanLimit fileSize segmentStart : Int) :
    Nat → Int → HeaderScanResult → Except JsErr HeaderScanResult
  | 0, _, st => .ok st
  | fuel + 1, offset, st =>
    if offset < scanLimit then
      if fileSize ≤ offset then .ok st
      else
        match readElementHeader r offset with
        | .error e => .error e
        | .ok hdr =>
          if hdr.id = IDS.CLUSTER then .ok st
          else
            match dispatchChild r segmentStart offset hdr st with
            | .error e => .error e
            | .ok st2 =>
              if hdr.size = VINT_UNKNOWN_MARKER then .ok st2
              else
                scanChildrenLoop r scanLimit fileSize segmentStart fuel
                  (offset + hdr.headerSize + hdr.size) st2
    else .ok st

/-- scanHeader's leading loop locating the Segment element. -/
def findSegmentLoop (r : Reader) (scanLimit : Int) : Nat → Int → Except JsErr Int
  | 0, _ => .error .segmentNotFound
  | fuel + 1, offset =>
    if offset < scanLimit then
      match readElementHeader r offset with
      | .error e => .error e
      | .ok hdr =>
        if hdr.id = IDS.SEGMENT then .ok (offset + hdr.headerSize)
        else findSegmentLoop r scanLimit fuel (offset + hdr.headerSize + hdr.size)
    else .error .segmentNotFound

/-- scanner.ts scanHeader. -/
def scanHeader (r : Reader) : Except JsErr HeaderScanResult :=
  let fileSize := r.getSize
  let scanLimit := min fileSize 65536
  match findSegmentLoop r scanLimit scanLimit.toNat 0 with
  | .error e => .error e
  | .ok segmentStart =>
    scanChildrenLoop r scanLimit fileSize segmentStart
      (scanLimit - segmentStart).toNat segmentStart ⟨initInfo, [], none⟩

/-- Body of parseCuePoint: the last CueTime in the point wins. -/
def parseCuePointLoop (r : Reader) (endO : Int) : Nat → Int → Nat → Except JsErr Nat
  | 0, _, time => .ok time
  | fuel + 1, current, time =>
    if current < endO then
      match readElementHeader r current with
      | .error e => .error e
      | .ok hdr =>
        let content := current + hdr.headerSize
        let next := current + hdr.headerSize + hdr.size
        if hdr.id = IDS.CUE_TIME then
          match readUIntPayload (r.read content hdr.size) hdr.size with
          | .error e => .error e
          | .ok v => parseCuePointLoop r endO fuel next v
        else parseCuePointLoop r endO fuel next time
    else .ok time

def parseCuePoint (r : Reader) (offset size : Int) : Except JsErr Nat :=
  parseCuePointLoop r (offset + size) size.toNat offset 0

/-- Body of scanCues: running maximum CueTime over the CuePoint children. -/
def scanCuesLoop (r : Reader) (endO : Int) : Nat → Int → Nat → Except JsErr Nat
  | 0, _, maxTime => .ok maxTime
  | fuel + 1, current, maxTime =>
    if current < endO then
      match readElementHeader r current with
      | .error e => .error e
      | .ok hdr =>
        let next := current + hdr.headerSize + hdr.size
        if hdr.id = IDS.CUE_POINT then
          match parseCuePoint r (current + hdr.headerSize) hdr.size with
          | .error e => .error e
          | .ok t => scanCuesLoop r endO fuel next (if t > maxTime then t else maxTime)
        else scanCuesLoop r endO fuel next maxTime
    else .ok maxTime

/-- scanner.ts scanCues: null on id mismatch, else max CueTime × scale / 1e9. -/
def scanCues (r : Reader) (cuesOffset : Int) (timecodeScale : Nat) :
    Except JsErr (Option ℚ) :=
  match readElementHeader r cuesOffset with
  | .error e => .error e
  | .ok hdr =>
    if hdr.id ≠ IDS.CUES then .ok none
    else
      match scanCuesLoop r (cuesOffset + hdr.headerSize + hdr.size) hdr.size.toNat
          (cuesOffset + hdr.headerSize) 0 with
      | .error e => .error e
      | .ok maxTime => .ok (some (((maxTime : ℚ) * (timecodeScale : ℚ)) / 1000000000))

/-- The Timecode-value loop of scanTail: stops early at the window length
variable, but a fetch may still fail if the view is shorter than it. -/
def accumTimecode (w : List Nat) (lenVar : Int) : Nat → Int → Nat → Except JsErr Nat
  | 0, _, acc => .ok acc
  | count + 1, idx, acc =>
    if lenVar ≤ idx then .ok acc
    else
      match getUint8 w idx with
      | .error e => .error e
      | .ok b => accumTimecode w lenVar count (idx + 1) (fl64 (acc * 256 + b))

/-- The `timecodeOffset + 2 <= length` guarded Int16 read and running-maximum
update at the end of a block candidate. -/
def relTimecodeUpdate (w : List Nat) (lenVar base tco maxT : Int) : Except JsErr Int :=
  if tco + 2 ≤ lenVar then
    match getInt16BE w tco with
    | .error e => .error e
    | .ok rel => .ok (if base + rel > maxT then base + rel else maxT)
  else .ok maxT

/-- The nested BlockGroup walk looking for a Block (0xA1) child. -/
def bgFindBlock (w : List Nat) (lenVar bgEnd : Int) : Nat → Int → Except JsErr (Option Int)
  | 0, _ => .ok none
  | fuel + 1, cur =>
    if cur < min bgEnd lenVar then
      match readID w cur with
      | .error e => .error e
      | .ok bid =>
        match readVint w (cur + bid.length) with
        | .error e => .error e
        | .ok bsz =>
          if bid.value = 0xA1 then .ok (some (cur + bid.length + bsz.length))
          else bgFindBlock w lenVar bgEnd fuel (cur + bid.length + bsz.length + bsz.value)
    else .ok none

/-- The block walk inside a validated Cluster candidate.  Decoding errors are
caught by the inner try and break the walk, returning the maximum so far. -/
def blockScan (w : List Nat) (lenVar bound base : Int) : Nat → Int → Int → Int
  | 0, _, maxT => maxT
  | fuel + 1, offset, maxT =>
    if offset < bound then
      match readID w offset with
      | .error _ => maxT
      | .ok eid =>
        match readVint w (offset + eid.length) with
        | .error _ => maxT
        | .ok esz =>
          let ecs := offset + eid.length + esz.length
          if eid.value = IDS.SIMPLE_BLOCK ∨ eid.value = IDS.BLOCK_GROUP then
            match
              (if eid.value = IDS.BLOCK_GROUP then
                bgFindBlock w lenVar (ecs + esz.value) (min (ecs + esz.value) lenVar - ecs).toNat ecs
              else .ok (some ecs)) with
            | .error _ => maxT
            | .ok none => blockScan w lenVar bound base fuel (ecs + esz.value) maxT
            | .ok (some bds) =>
              match readVint w bds with
              | .error _ => maxT
              | .ok tn =>
                match relTimecodeUpdate w lenVar base (bds + tn.length) maxT with
                | .error _ => maxT
                | .ok maxT2 => blockScan w lenVar bound base fuel (ecs + esz.value) maxT2
          else blockScan w lenVar bound base fuel (ecs + esz.value) maxT
    else maxT

/-- One Cluster-signature candidate of scanTail (the outer try body): every
decode failure abandons just this candidate, leaving the state unchanged. -/
def processCandidate (w : List Nat) (lenVar i : Int) (found : Bool) (maxT : Int) :
    Bool × Int :=
  match readVint w (i + 4) with
  | .error _ => (found, maxT)
  | .ok sz =>
    let ccs := i + 4 + sz.length
    if ccs + 4 ≤ lenVar then
      match readID w ccs with
      | .error _ => (found, maxT)
      | .ok fid =>
        if fid.value = IDS.TIMECODE then
          match readVint w (ccs + fid.length) with
          | .error _ => (found, maxT)
          | .ok tcsz =>
            let tcValStart := ccs + fid.length + tcsz.length
            match accumTimecode w lenVar tcsz.value.toNat tcValStart 0 with
            | .error _ => (found, maxT)
            | .ok tcVal =>
              let maxT1 := if (tcVal : Int) > maxT then (tcVal : Int) else maxT
              let clusterEnd := if sz.value = VINT_UNKNOWN_MARKER then lenVar else ccs + sz.value
              let bound := min clusterEnd lenVar
              let start := tcValStart + tcsz.value
              (true, blockScan w lenVar bound (tcVal : Int) (bound - start).toNat start maxT1)
        else (found, maxT)
    else (found, maxT)

/-- The byte-by-byte signature scan of scanTail over the window. -/
def scanTailLoop (w : List Nat) (lenVar : Int) :
    Nat → Int → Bool → Int → Except JsErr (Bool × Int)
  | 0, _, found, maxT => .ok (found, maxT)
  | fuel + 1, i, found, maxT =>
    if i < lenVar - 4 then
      match getUint32BE w i with
      | .error e => .error e
      | .ok u32 =>
        if u32 = IDS.CLUSTER then
          let p := processCandidate w lenVar i found maxT
          scanTailLoop w lenVar fuel (i + 1) p.1 p.2
        else scanTailLoop w lenVar fuel (i + 1) found maxT
    else .ok (found, maxT)

/-- scanner.ts scanTail: resynchronising scan of the last 2 MiB. -/
def scanTail (r : Reader) (fileSize : Int) (timecodeScale : Nat) :
    Except JsErr (Option ℚ) :=
  let startOffset := max 0 (fileSize - 2097152)
  let length := fileSize - startOffset
  if length ≤ 0 then .ok none
  else
    let buffer := r.read startOffset length
    match scanTailLoop buffer length (length - 4).toNat 0 false 0 with
    | .error e => .error e
    | .ok p =>
      if p.1 = false then .ok none
      else .ok (some (((p.2 : ℚ) * (timecodeScale : ℚ)) / 1000000000))

/-- JavaScript truthiness of a possibly-absent number (0 and NaN are falsy). -/
def jsTruthy : Option JSFloat → Bool
  | none => false
  | some .nan => false
  | some (.num q) => decide (q ≠ 0)
  | some _ => true

/-- Multiplication by an integer-valued JS number (Infinity × 0 is NaN). -/
def JSFloat.mulNat : JSFloat → Nat → JSFloat
  | .nan, _ => .nan
  | .posInf, n => if n = 0 then .nan else .posInf
  | .negInf, n => if n = 0 then .nan else .negInf
  | .num q, n => .num (q * n)

/-- Division by the positive constant 1e9. -/
def JSFloat.divBillion : JSFloat → JSFloat
  | .nan => .nan
  | .posInf => .posInf
  | .negInf => .negInf
  | .num q => .num (q / 1000000000)

/-- ASCII bytes of "video/webm". -/
def MIME_BASE : List Nat := [118, 105, 100, 101, 111, 47, 119, 101, 98, 109]

/-- ASCII bytes of the codecs attribute opener (semicolon space codecs= quote). -/
def MIME_CODECS_OPEN : List Nat := [59, 32, 99, 111, 100, 101, 99, 115, 61, 34]

/-- Array.prototype.join with the two-byte separator comma space. -/
def joinCodecs : List (List Nat) → List Nat
  | [] => []
  | [c] => c
  | c :: cs => c ++ [44, 32] ++ joinCodecs cs

/-- index.ts mimeType assembly; `if (track.codecId)` skips absent AND empty
codec strings (empty strings are falsy). -/
def buildMime (tracks : List WebmTrack) : List Nat :=
  let codecs := tracks.filterMap fun t =>
    match t.codecId with
    | some s => if s = [] then none else some s
    | none => none
  if codecs = [] then MIME_BASE
  else MIME_BASE ++ MIME_CODECS_OPEN ++ joinCodecs codecs ++ [34]

/-- index.ts WebmMeta as actually constructed: the duration field holds the
seconds value of the winning tier, or null (`none`) when every tier failed. -/
structure WebmMeta where
  duration : Option JSFloat
  fileSize : Int
  mimeType : List Nat
  info : WebmInfo
  tracks : List WebmTrack
deriving DecidableEq, Repr

/-- index.ts parseWebm on an already-constructed Reader: mandatory header
scan, then the three-tier duration fallback, then assembly. -/
def parseWebm (r : Reader) : Except JsErr WebmMeta :=
  let fileSize := r.getSize
  match scanHeader r with
  | .error e => .error e
  | .ok hr =>
    let d0 : Option JSFloat :=
      match hr.info.duration with
      | some d => if jsTruthy (some d) then some ((d.mulNat hr.info.timecodeScale).divBillion)
                  else none
      | none => none
    let afterCues : Except JsErr (Option JSFloat) :=
      match d0, hr.cuesOffset with
      | none, some co =>
        (match scanCues r co hr.info.timecodeScale with
         | .error e => .error e
         | .ok cq => .ok (cq.map JSFloat.num))
      | d, _ => .ok d
    match afterCues with
    | .error e => .error e
    | .ok d1 =>
      let afterTail : Except JsErr (Option JSFloat) :=
        match d1 with
        | none =>
          (match scanTail r fileSize hr.info.timecodeScale with
           | .error e => .error e
           | .ok tq => .ok (tq.map JSFloat.num))
        | some d => .ok (some d)
      match afterTail with
      | .error e => .error e
      | .ok d2 => .ok ⟨d2, fileSize, buildMime hr.tracks, hr.info, hr.tracks⟩

/-! Concrete byte fixtures used by the claim theorems. -/

/-- Segment[Cues[CuePoint[CueTime 2000]]] with no Info element, the
spec's tier-fallback scenario (Cues max 2000 ticks, default scale 1e6). -/
def cuesFile2000 : List Nat :=
  [0x18, 0x53, 0x80, 0x67, 0x8B,
   0x1C, 0x53, 0xBB, 0x6B, 0x86,
   0xBB, 0x84,
   0xB3, 0x82, 0x07, 0xD0]

/-- Segment[Info[Duration float32 0.0], Cues[CuePoint[CueTime 2000]]]. -/
def zeroDurFile : List Nat :=
  [0x18, 0x53, 0x80, 0x67, 0x97,
   0x15, 0x49, 0xA9, 0x66, 0x87,
   0x44, 0x89, 0x84, 0x00, 0x00, 0x00, 0x00,
   0x1C, 0x53, 0xBB, 0x6B, 0x86,
   0xBB, 0x84,
   0xB3, 0x82, 0x07, 0xD0]

/-- Segment[Info[Duration float32 5000.0]] (5000.0f is 0x459C4000). -/
def tier1File : List Nat :=
  [0x18, 0x53, 0x80, 0x67, 0x8C,
   0x15, 0x49, 0xA9, 0x66, 0x87,
   0x44, 0x89, 0x84, 0x45, 0x9C, 0x40, 0x00]

/-- Segment[Info[Duration float32 -5.0]] (-5.0f is 0xC0A00000). -/
def negDurFile : List Nat :=
  [0x18, 0x53, 0x80, 0x67, 0x8C,
   0x15, 0x49, 0xA9, 0x66, 0x87,
   0x44, 0x89, 0x84, 0xC0, 0xA0, 0x00, 0x00]

/-- SeekHead content: one Seek entry whose binary SeekID payload starts with
a 0x00 byte (payload 0x00 0x01), SeekPosition 16. -/
def seekHeadCtr : List Nat :=
  [0x4D, 0xBB, 0x89,
   0x53, 0xAB, 0x82, 0x00, 0x01,
   0x53, 0xAC, 0x81, 0x10]

/-- SeekHead content: one Seek entry whose SeekID payload is the four id
bytes of Cues, SeekPosition 16. -/
def seekHeadOkBytes : List Nat :=
  [0x4D, 0xBB, 0x8B,
   0x53, 0xAB, 0x84, 0x1C, 0x53, 0xBB, 0x6B,
   0x53, 0xAC, 0x81, 0x10]

/-- A window whose first four bytes are the Cluster signature, followed by a
zero size and four zero bytes: the signature matches but no Timecode child
validates. -/
def tailCtr : List Nat := [0x1F, 0x43, 0xB6, 0x75, 0x80, 0x00, 0x00, 0x00, 0x00]

/-- Segment[Info[TimecodeScale 5], unknown-size element 0xEC, Tracks with one
empty TrackEntry]: the unknown-size element precedes Tracks. -/
def unknownStopFile : List Nat :=
  [0x18, 0x53, 0x80, 0x67, 0x93,
   0x15, 0x49, 0xA9, 0x66, 0x85,
   0x2A, 0xD7, 0xB1, 0x81, 0x05,
   0xEC, 0xFF,
   0x16, 0x54, 0xAE, 0x6B, 0x82,
   0xAE, 0x80]

/-- Cluster[Timecode 5] followed by one trailing junk byte. -/
def smallClusterFile : List Nat :=
  [0x1F, 0x43, 0xB6, 0x75, 0x83, 0xE7, 0x81, 0x05, 0x00]

/-- Cues whose two CuePoints carry CueTimes in DESCENDING order: 500, 100. -/
def unsortedCuesBytes : List Nat :=
  [0x1C, 0x53, 0xBB, 0x6B, 0x8B,
   0xBB, 0x84, 0xB3, 0x82, 0x01, 0xF4,
   0xBB, 0x83, 0xB3, 0x81, 0x64]

/-- An empty Cues element (declared content size 0). -/
def emptyCuesBytes : List Nat := [0x1C, 0x53, 0xBB, 0x6B, 0x80]

/-- A Segment header at the offset where scanCues expects Cues. -/
def mismatchBytes : List Nat := [0x18, 0x53, 0x80, 0x67, 0x80]

/-! Basic facts about the decoders. -/

theorem getUint8_ok_lt {w : List Nat} {i : Int} {b : Nat}
    (h : getUint8 w i = .ok b) : b < 256 := by
  unfold getUint8 at h
  split at h
  · simp only [Except.ok.injEq] at h
    subst h
    exact Nat.mod_lt _ (by norm_num)
  · simp at h

theorem getUint8_error {w : List Nat} {i : Int} {e : JsErr}
    (h : getUint8 w i = .error e) : e = .rangeError := by
  unfold getUint8 at h
  split at h
  · simp at h
  · simp only [Except.error.injEq] at h
    exact h.symm

theorem accumBytes_error {w : List Nat} {e : JsErr} :
    ∀ {c : Nat} {i : Int} {a : Nat}, accumBytes w c i a = .error e → e = .rangeError := by
  intro c
  induction c with
  | zero => intro i a h; simp [accumBytes] at h
  | succ n ih =>
    intro i a h
    unfold accumBytes at h
    cases hg : getUint8 w i with
    | error e2 =>
      simp only [hg, Except.error.injEq] at h
      subst h
      exact getUint8_error hg
    | ok b =>
      simp only [hg] at h
      exact ih h

theorem readVintFinish_ok {w : List Nat} {offset : Int} {len first : Nat} {vr : VintRes}
    (h : readVintFinish w offset len first = .ok vr) :
    vr.length = (len : Int) ∧ -1 ≤ vr.value := by
  unfold readVintFinish at h
  cases ha : accumBytes w (len - 1) (offset + 1) first with
  | error e => simp only [ha] at h; exact Except.noConfusion h
  | ok raw =>
    simp only [ha] at h
    split at h <;> simp only [Except.ok.injEq] at h <;> subst h
    · exact ⟨rfl, by simp [VINT_UNKNOWN_MARKER]⟩
    · exact ⟨rfl, by show -1 ≤ (raw : Int); omega⟩

theorem readVint_ok_facts {w : List Nat} {offset : Int} {vr : VintRes}
    (h : readVint w offset = .ok vr) :
    1 ≤ vr.length ∧ vr.length ≤ 8 ∧ -1 ≤ vr.value := by
  unfold readVint at h
  cases hg : getUint8 w offset with
  | error e => simp only [hg] at h; exact Except.noConfusion h
  | ok byte1 =>
    simp only [hg] at h
    split_ifs at h <;>
      (have hf := readVintFinish_ok h
       exact ⟨by rw [hf.1]; norm_num, by rw [hf.1]; norm_num, hf.2⟩)

theorem readIdFinish_ok {w : List Nat} {offset : Int} {len : Nat} {ir : IdRes}
    (h : readIdFinish w offset len = .ok ir) : ir.length = (len : Int) := by
  unfold readIdFinish at h
  cases ha : accumBytes w len offset 0 with
  | error e => simp only [ha] at h; exact Except.noConfusion h
  | ok v =>
    simp only [ha, Except.ok.injEq] at h
    subst h
    rfl

theorem readID_ok_facts {w : List Nat} {offset : Int} {ir : IdRes}
    (h : readID w offset = .ok ir) : 1 ≤ ir.length ∧ ir.length ≤ 8 := by
  unfold readID at h
  cases hg : getUint8 w offset with
  | error e => simp only [hg] at h; exact Except.noConfusion h
  | ok byte1 =>
    simp only [hg] at h
    split_ifs at h <;>
      (have hf := readIdFinish_ok h
       rw [hf]
       norm_num)

theorem readElementHeader_advance {r : Reader} {offset : Int} {hdr : ElementHeader}
    (h : readElementHeader r offset = .ok hdr) :
    2 ≤ hdr.headerSize ∧ -1 ≤ hdr.size := by
  unfold readElementHeader at h
  cases h1 : readID (r.read offset 12) 0 with
  | error e => simp only [h1] at h; exact Except.noConfusion h
  | ok idr =>
    simp only [h1] at h
    cases h2 : readVint (r.read offset 12) idr.length with
    | error e => simp only [h2] at h; exact Except.noConfusion h
    | ok vr =>
      simp only [h2, Except.ok.injEq] at h
      subst h
      have f1 := readID_ok_facts h1
      have f2 := readVint_ok_facts h2
      exact ⟨by simp only []; omega, by simp only []; omega⟩

theorem readVintFinish_spec {w : List Nat} {offset : Int} {len first : Nat} {vr : VintRes}
    (h : readVintFinish w offset len first = .ok vr) :
    vr.length = (len : Int) ∧ ∃ raw : Nat,
      accumBytes w (len - 1) (offset + 1) first = .ok raw
      ∧ (raw = fl64 (2 ^ (7 * len) - 1) → vr.value = VINT_UNKNOWN_MARKER)
      ∧ (raw ≠ fl64 (2 ^ (7 * len) - 1) → vr.value = (raw : Int)) := by
  unfold readVintFinish at h
  cases ha : accumBytes w (len - 1) (offset + 1) first with
  | error e => simp only [ha] at h; exact Except.noConfusion h
  | ok raw =>
    simp only [ha] at h
    by_cases hr : raw = fl64 (2 ^ (7 * len) - 1)
    · rw [if_pos hr] at h
      simp only [Except.ok.injEq] at h
      subst h
      exact ⟨rfl, raw, rfl, fun _ => rfl, fun hne => absurd hr hne⟩
    · rw [if_neg hr] at h
      simp only [Except.ok.injEq] at h
      subst h
      exact ⟨rfl, raw, rfl, fun hc => absurd hc hr, fun _ => rfl⟩

theorem readVintFinish_ne_invalid {w : List Nat} {offset : Int} {len first : Nat} :
    readVintFinish w offset len first ≠ .error .invalidVint := by
  intro hc
  unfold readVintFinish at hc
  cases ha : accumBytes w (len - 1) (offset + 1) first with
  | error e =>
    simp only [ha, Except.error.injEq] at hc
    have he := accumBytes_error ha
    rw [hc] at he
    exact JsErr.noConfusion he
  | ok raw =>
    simp only [ha] at hc
    split at hc <;> exact Except.noConfusion hc

/-- fl64 is the identity below 2^53; in particular the binary64 maxVal of a
length-L VINT is the exact all-ones value for every L ≤ 7. -/
theorem fl64_eq_of_lt {n : Nat} (h : n < 2 ^ 53) : fl64 n = n := by
  unfold fl64
  rw [if_pos h]

theorem fl64_maxVal_exact_of_le_seven {L : Nat} (h : L ≤ 7) :
    fl64 (2 ^ (7 * L) - 1) = 2 ^ (7 * L) - 1 := by
  apply fl64_eq_of_lt
  have hp : 2 ^ (7 * L) ≤ 2 ^ 49 := Nat.pow_le_pow_right (by norm_num) (by omega)
  have : (2 : Nat) ^ 49 < 2 ^ 53 := by norm_num
  omega

/-- Packaging of one length branch of readVint for the claim-C4 theorem. -/
theorem claim4_branch_pack {w : List Nat} {offset : Int} {b : Nat} {vr : VintRes}
    {L first : Nat}
    (hg : getUint8 w offset = .ok b)
    (hvr : readVintFinish w offset L first = .ok vr)
    (hL1 : 1 ≤ L) (hL8 : L ≤ 8)
    (hlow : 2 ^ (8 - L) ≤ b) (hhigh : b < 2 ^ (9 - L))
    (hfirst : first = b - 2 ^ (8 - L)) :
    ∃ (b2 L2 : Nat), getUint8 w offset = .ok b2 ∧ vr.length = (L2 : Int)
      ∧ 1 ≤ L2 ∧ L2 ≤ 8 ∧ 2 ^ (8 - L2) ≤ b2 ∧ b2 < 2 ^ (9 - L2)
      ∧ ∃ raw : Nat,
          accumBytes w (L2 - 1) (offset + 1) (b2 - 2 ^ (8 - L2)) = .ok raw
          ∧ (raw = fl64 (2 ^ (7 * L2) - 1) → vr.value = VINT_UNKNOWN_MARKER)
          ∧ (raw ≠ fl64 (2 ^ (7 * L2) - 1) → vr.value = (raw : Int)) := by
  obtain ⟨hlen, raw, hacc, hunk, hnum⟩ := readVintFinish_spec hvr
  exact ⟨b, L, hg, hlen, hL1, hL8, hlow, hhigh, raw, by rw [← hfirst]; exact hacc, hunk, hnum⟩

/-- Counterexample to C4 as stated: the 8-byte VINT 0x01 FF FF FF FF FF FF
FE has content bits that are NOT all ones (its exact big-endian value is
2^56 − 2, not 2^56 − 1), yet readVint returns the UNKNOWN sentinel: the
source accumulates the value in binary64, where both 2^56 − 2 and the
computed maxVal 2^56 − 1 round to 2^56 and compare equal. -/
theorem claim4_counterexample_binary64_rounding :
    readVint [0x01, 0xFF, 0xFF, 0xFF, 0xFF, 0xFF, 0xFF, 0xFE] 0
      = .ok ⟨VINT_UNKNOWN_MARKER, 8⟩
    ∧ readBytesBE [0x01, 0xFF, 0xFF, 0xFF, 0xFF, 0xFF, 0xFF, 0xFE] 7 1 0
        = .ok (2 ^ 56 - 2)
    ∧ (2 ^ 56 - 2 : Nat) ≠ 2 ^ (7 * 8) - 1 :=
  ⟨by decide, by decide, by decide⟩

/-- C4 (amended): readVint decodes a length in [1,8] determined by the
leading-zero run of the first byte, masks out the marker bit, and
accumulates the remaining bytes big-endian in binary64 arithmetic (each
step rounded to nearest-even); it fails with the invalid-encoding error
exactly when the first byte is 0x00; and it returns the UNKNOWN sentinel
with the same length exactly when the (rounded) accumulated value equals
the (rounded) maximum fl64(2^(7·length) − 1) — which is the exact all-ones
value for every length up to 7, while at length 8 near-maximal content can
also round onto it. -/
theorem claim4_readVint_spec (w : List Nat) (offset : Int) :
    (readVint w offset = .error .invalidVint ↔ getUint8 w offset = .ok 0)
    ∧ (∀ L : Nat, L ≤ 7 → fl64 (2 ^ (7 * L) - 1) = 2 ^ (7 * L) - 1)
    ∧ (∀ vr : VintRes, readVint w offset = .ok vr →
        ∃ (b L : Nat), getUint8 w offset = .ok b ∧ vr.length = (L : Int)
          ∧ 1 ≤ L ∧ L ≤ 8 ∧ 2 ^ (8 - L) ≤ b ∧ b < 2 ^ (9 - L)
          ∧ ∃ raw : Nat,
              accumBytes w (L - 1) (offset + 1) (b - 2 ^ (8 - L)) = .ok raw
              ∧ (raw = fl64 (2 ^ (7 * L) - 1) → vr.value = VINT_UNKNOWN_MARKER)
              ∧ (raw ≠ fl64 (2 ^ (7 * L) - 1) → vr.value = (raw : Int))) := by
  refine ⟨?_, fun L hL => fl64_maxVal_exact_of_le_seven hL, ?_⟩
  · cases hg : getUint8 w offset with
    | error e =>
      constructor
      · intro hL
        unfold readVint at hL
        simp only [hg, Except.error.injEq] at hL
        have he := getUint8_error hg
        rw [hL] at he
        exact JsErr.noConfusion he
      · intro hR
        exact Except.noConfusion hR
    | ok b =>
      have hb := getUint8_ok_lt hg
      constructor
      · intro hL
        unfold readVint at hL
        simp only [hg] at hL
        split_ifs at hL with h1 h2 h3 h4 h5 h6 h7 h8 <;>
          first
          | exact absurd hL readVintFinish_ne_invalid
          | (simp only [Except.ok.injEq]; omega)
      · intro hR
        simp only [Except.ok.injEq] at hR
        subst hR
        unfold readVint
        simp only [hg]
        norm_num
  · intro vr hvr
    unfold readVint at hvr
    cases hg : getUint8 w offset with
    | error e => simp only [hg] at hvr; exact Except.noConfusion hvr
    | ok b =>
      have hb := getUint8_ok_lt hg
      simp only [hg] at hvr
      rw [← hg]
      split_ifs at hvr with h1 h2 h3 h4 h5 h6 h7 h8
      · refine claim4_branch_pack hg hvr ?_ ?_ ?_ ?_ ?_ <;> (try norm_num) <;> omega
      · refine claim4_branch_pack hg hvr ?_ ?_ ?_ ?_ ?_ <;> (try norm_num) <;> omega
      · refine claim4_branch_pack hg hvr ?_ ?_ ?_ ?_ ?_ <;> (try norm_num) <;> omega
      · refine claim4_branch_pack hg hvr ?_ ?_ ?_ ?_ ?_ <;> (try norm_num) <;> omega
      · refine claim4_branch_pack hg hvr ?_ ?_ ?_ ?_ ?_ <;> (try norm_num) <;> omega
      · refine claim4_branch_pack hg hvr ?_ ?_ ?_ ?_ ?_ <;> (try norm_num) <;> omega
      · refine claim4_branch_pack hg hvr ?_ ?_ ?_ ?_ ?_ <;> (try norm_num) <;> omega
      · refine claim4_branch_pack hg hvr ?_ ?_ ?_ ?_ ?_ <;> (try norm_num) <;> omega

/-- Witness for C4: a 0x00 first byte triggers the invalid-encoding error;
the all-ones byte 0xFF decodes to the UNKNOWN sentinel at length 1; and for
length 2 the rounded maximum is the exact all-ones value 2^14 − 1. -/
theorem claim4_witness :
    (getUint8 [0, 5] 0 = .ok 0 ∧ readVint [0, 5] 0 = .error .invalidVint)
    ∧ fl64 (2 ^ (7 * 2) - 1) = 2 ^ (7 * 2) - 1
    ∧ readVint [0xFF] 0 = .ok ⟨VINT_UNKNOWN_MARKER, 1⟩ := by
  refine ⟨⟨by decide, (claim4_readVint_spec [0, 5] 0).1.mpr (by decide)⟩,
    (claim4_readVint_spec [0, 5] 0).2.1 2 (by decide), by decide⟩

/-- C9: every element header a bounded child walk reads has a header length
of at least 2 bytes and a size of at least the unknown-size sentinel -1, so
the cursor advance `headerSize + size` of every walk iteration (the loops of
parseSeekHead, parseInfo, parseTracks, parseTrackEntry, parseVideo,
parseAudio, parseCuePoint and their callers) is at least 1 and every walk
over a finite range terminates. -/
theorem claim9_child_walk_advance {r : Reader} {offset : Int} {hdr : ElementHeader}
    (h : readElementHeader r offset = .ok hdr) :
    2 ≤ hdr.headerSize ∧ VINT_UNKNOWN_MARKER ≤ hdr.size
      ∧ 1 ≤ hdr.headerSize + hdr.size := by
  have ha := readElementHeader_advance h
  refine ⟨ha.1, ?_, by omega⟩
  simp only [VINT_UNKNOWN_MARKER]
  omega

/-- Witness for C9 at a concrete header read. -/
theorem claim9_witness :
    readElementHeader (createBufferReader smallClusterFile) 0 = .ok ⟨0x1F43B675, 3, 5⟩
    ∧ (2 ≤ (5 : Int) ∧ VINT_UNKNOWN_MARKER ≤ (3 : Int) ∧ 1 ≤ (5 : Int) + 3) :=
  ⟨by decide,
   @claim9_child_walk_advance (createBufferReader smallClusterFile) 0
     ⟨0x1F43B675, 3, 5⟩ (by decide)⟩

/-- C10: parseWebm is deterministic.  In this embedding the Reader built from
a byte buffer is a pure function of the buffer and parseWebm is a pure
function of the Reader (the source awaits its reads sequentially and shares
no mutable state between calls), so two parses of Readers created from the
same buffer yield identical WebmMeta values - duration, fileSize, mimeType,
info and the track list in file order. -/
theorem claim10_parseWebm_deterministic (b : List Nat) (r1 r2 : Reader)
    (h1 : r1 = createBufferReader b) (h2 : r2 = createBufferReader b) :
    parseWebm r1 = parseWebm r2 := by
  subst h1
  subst h2
  rfl

/-- Witness for C10 at a concrete buffer. -/
theorem claim10_witness :
    parseWebm (createBufferReader tier1File) = parseWebm (createBufferReader tier1File) :=
  claim10_parseWebm_deterministic tier1File _ _ rfl rfl

/-- C1 (code-bug evidence): on a file with no Info.Duration and a Cues
maximum time of 2000 ticks at scale 1,000,000, parseWebm returns the seconds
value 2 (= maxTicks*scale/1e9, with no conversion to milliseconds) in a
field named `duration`, and stores null there instead of omitting the field
when every tier fails; the WebmMeta type declared in types.ts and the
integration tests instead promise a millisecond field durationMilliSeconds
(2000 here), which the code never produces. -/
theorem claim1_duration_field_is_seconds :
    parseWebm (createBufferReader cuesFile2000)
      = .ok ⟨some (JSFloat.num 2), 16, MIME_BASE, initInfo, []⟩
    ∧ (2 : ℚ) ≠ 2000 :=
  ⟨by decide, by norm_num⟩

/-- C5 (code-bug evidence): parseSeekHead decodes a SeekID payload by raw
big-endian reinterpretation, but first runs readVint over the payload and
discards its value; a payload whose first byte is 0x00 therefore aborts the
whole scan with the invalid-encoding error instead of being accepted, while
a well-formed payload is reported as the raw big-endian integer together
with the SeekPosition. -/
theorem claim5_seekid_leading_zero_throws :
    parseSeekHead (createBufferReader seekHeadCtr) 0 12 = .error .invalidVint
    ∧ parseSeekHead (createBufferReader seekHeadOkBytes) 0 14 = .ok [(0x1C53BB6B, 16)] :=
  ⟨by decide, by decide⟩

/-- Counterexample to C2 as stated: a declared Info.Duration of zero is
present, yet the final duration is taken from the Cues tier (2 seconds, not
the tier-1 value 0*scale/1e9 = 0), because the code tests the declared
duration for JavaScript truthiness rather than presence. -/
theorem claim2_counterexample_zero_duration :
    Except.map (fun m => (m.info.duration, m.duration))
        (parseWebm (createBufferReader zeroDurFile))
      = .ok (some (JSFloat.num 0), some (JSFloat.num 2))
    ∧ JSFloat.num 2 ≠ JSFloat.num ((0 * 1000000 : ℚ) / 1000000000) :=
  ⟨by decide, by decide⟩

/-- Counterexample to C8 as stated: a file whose Info declares Duration
-5.0 resolves (through tier 1) to the negative duration -5e6/1e9. -/
theorem claim8_counterexample_negative_duration :
    Except.map WebmMeta.duration (parseWebm (createBufferReader negDurFile))
      = .ok (some (JSFloat.num (-1 / 200)))
    ∧ (-1 / 200 : ℚ) < 0 :=
  ⟨by decide, by norm_num⟩

/-- Counterexample to C3 as stated: in this window the 4-byte Cluster
signature matches at position 0, yet scanTail returns "not found" because
the candidate has no Timecode first child — so "null iff no signature
matched anywhere" is false. -/
theorem claim3_counterexample_signature_without_timecode :
    scanTail (createBufferReader tailCtr) 9 1000000 = .ok none
    ∧ getUint32BE ((createBufferReader tailCtr).read 0 9) 0 = .ok IDS.CLUSTER :=
  ⟨by decide, by decide⟩

/-- C6: scanCues returns "not found" precisely when the element header read
at the given offset carries an id other than the Cues id; otherwise it
returns the maximum CueTime over the CuePoint children times scale/1e9 —
demonstrated on a Cues whose cue points are in descending (unsorted) order,
where the maximum 500 (not the last entry 100) wins — and an empty Cues
yields duration 0. -/
theorem claim6_scanCues_spec :
    (∀ (r : Reader) (off : Int) (scale : Nat) (res : Option ℚ),
        scanCues r off scale = .ok res →
        (res = none ↔ ∃ hdr, readElementHeader r off = .ok hdr ∧ hdr.id ≠ IDS.CUES))
    ∧ scanCues (createBufferReader unsortedCuesBytes) 0 1000000 = .ok (some (1 / 2))
    ∧ scanCues (createBufferReader emptyCuesBytes) 0 1000000 = .ok (some 0) := by
  refine ⟨?_, by decide, by decide⟩
  intro r off scale res h
  unfold scanCues at h
  cases hh : readElementHeader r off with
  | error e => simp only [hh] at h; exact Except.noConfusion h
  | ok hdr =>
    simp only [hh] at h
    by_cases hid : hdr.id = IDS.CUES
    · rw [if_neg (fun hc => hc hid)] at h
      cases hl : scanCuesLoop r (off + hdr.headerSize + hdr.size) hdr.size.toNat
          (off + hdr.headerSize) 0 with
      | error e => simp only [hl] at h; exact Except.noConfusion h
      | ok mt =>
        simp only [hl, Except.ok.injEq] at h
        subst h
        constructor
        · intro hnone; exact Option.noConfusion hnone
        · rintro ⟨hdr2, hh2, hne⟩
          cases Except.ok.inj hh2
          exact absurd hid hne
    · rw [if_pos hid] at h
      simp only [Except.ok.injEq] at h
      subst h
      exact iff_of_true rfl ⟨hdr, rfl, hid⟩

/-- Witness for C6: a mismatching id at the offset makes scanCues return
"not found", and the main theorem recovers the mismatching header. -/
theorem claim6_witness :
    scanCues (createBufferReader mismatchBytes) 0 1000000 = .ok none
    ∧ ∃ hdr, readElementHeader (createBufferReader mismatchBytes) 0 = .ok hdr
        ∧ hdr.id ≠ IDS.CUES :=
  ⟨by decide,
   (claim6_scanCues_spec.1 (createBufferReader mismatchBytes) 0 1000000 none (by decide)).mp rfl⟩

/-- C7: when the Segment-children walk meets an element whose content size
decoded to the unknown-size sentinel and whose id is not Cluster, the walk
stops right after dispatching that element (no recursion, regardless of the
remaining budget) and returns whatever info, tracks and cuesOffset were
accumulated, without raising an error; concretely, after an unknown-size
element the following Tracks element of the fixture is never discovered and
the scan still succeeds. -/
theorem claim7_unknown_size_stops_walk :
    (∀ (r : Reader) (scanLimit fileSize segmentStart offset : Int)
        (fuel : Nat) (st : HeaderScanResult) (hdr : ElementHeader),
        offset < scanLimit → offset < fileSize →
        readElementHeader r offset = .ok hdr →
        hdr.id ≠ IDS.CLUSTER → hdr.size = VINT_UNKNOWN_MARKER →
        scanChildrenLoop r scanLimit fileSize segmentStart (fuel + 1) offset st
          = dispatchChild r segmentStart offset hdr st)
    ∧ scanHeader (createBufferReader unknownStopFile)
        = .ok ⟨⟨5, none, none, none⟩, [], none⟩ := by
  refine ⟨?_, by decide⟩
  intro r scanLimit fileSize segmentStart offset fuel st hdr h1 h2 hh hnc hu
  unfold scanChildrenLoop
  rw [if_pos h1, if_neg (by omega)]
  simp only [hh]
  rw [if_neg hnc]
  cases hd : dispatchChild r segmentStart offset hdr st with
  | error e => simp only [hd]
  | ok st2 => simp only [hd]; rw [if_pos hu]

/-- Witness for C7 at the fixture's unknown-size element (offset 15). -/
theorem claim7_witness :
    scanChildrenLoop (createBufferReader unknownStopFile) 24 24 5 1 15
        ⟨⟨5, none, none, none⟩, [], none⟩
      = dispatchChild (createBufferReader unknownStopFile) 5 15
          ⟨0xEC, VINT_UNKNOWN_MARKER, 2⟩ ⟨⟨5, none, none, none⟩, [], none⟩ :=
  claim7_unknown_size_stops_walk.1 (createBufferReader unknownStopFile) 24 24 5 15 0
    ⟨⟨5, none, none, none⟩, [], none⟩ ⟨0xEC, VINT_UNKNOWN_MARKER, 2⟩
    (by decide) (by decide) (by decide) (by decide) (by decide)

/-- C2 (amended): when the header scan yields an Info whose declared
Duration is present and truthy (nonzero and not NaN), parseWebm's duration
is the tier-1 value durationTicks*timecodeScale/1e9 and neither the Cues
scanner nor the tail scanner contributes to the result; a present but zero
declared duration instead falls through to the later tiers. -/
theorem claim2_truthy_info_duration_wins (r : Reader) (hr : HeaderScanResult)
    (d : JSFloat)
    (h1 : scanHeader r = .ok hr) (h2 : hr.info.duration = some d)
    (h3 : jsTruthy (some d) = true) :
    parseWebm r = .ok ⟨some ((d.mulNat hr.info.timecodeScale).divBillion),
      r.getSize, buildMime hr.tracks, hr.info, hr.tracks⟩ := by
  unfold parseWebm
  simp only [h1, h2, h3, if_true]

/-- Witness for C2 at a file declaring Duration 5000.0 at scale 1e6. -/
theorem claim2_witness :
    scanHeader (createBufferReader tier1File)
        = .ok ⟨⟨1000000, some (JSFloat.num 5000), none, none⟩, [], none⟩
    ∧ jsTruthy (some (JSFloat.num 5000)) = true
    ∧ parseWebm (createBufferReader tier1File)
        = .ok ⟨some ((JSFloat.num 5000).mulNat 1000000).divBillion, 17, MIME_BASE,
            ⟨1000000, some (JSFloat.num 5000), none, none⟩, []⟩ :=
  ⟨by decide, by decide,
   claim2_truthy_info_duration_wins (createBufferReader tier1File)
     ⟨⟨1000000, some (JSFloat.num 5000), none, none⟩, [], none⟩ (JSFloat.num 5000)
     (by decide) rfl (by decide)⟩

theorem relTimecodeUpdate_ge {w : List Nat} {lenVar base tco maxT m2 : Int}
    (h : relTimecodeUpdate w lenVar base tco maxT = .ok m2) : maxT ≤ m2 := by
  unfold relTimecodeUpdate at h
  split at h
  · cases hg : getInt16BE w tco with
    | error e => simp only [hg] at h; exact Except.noConfusion h
    | ok rel =>
      simp only [hg, Except.ok.injEq] at h
      subst h
      split <;> omega
  · simp only [Except.ok.injEq] at h
    omega

theorem blockScan_ge (w : List Nat) (lenVar bound base : Int) :
    ∀ (fuel : Nat) (offset maxT : Int), maxT ≤ blockScan w lenVar bound base fuel offset maxT := by
  intro fuel
  induction fuel with
  | zero => intro o m; exact le_refl m
  | succ n ih =>
    intro o m
    unfold blockScan
    split
    · split
      · exact le_refl m
      · split
        · exact le_refl m
        · dsimp only
          split
          · split
            · exact le_refl m
            · exact ih _ _
            · split
              · exact le_refl m
              · split
                · exact le_refl m
                · rename_i m2 hrel
                  exact le_trans (relTimecodeUpdate_ge hrel) (ih _ _)
          · exact ih _ _
    · exact le_refl m

theorem processCandidate_ge (w : List Nat) (lenVar i : Int) (found : Bool) (maxT : Int) :
    maxT ≤ (processCandidate w lenVar i found maxT).2 := by
  unfold processCandidate
  split
  · exact le_refl maxT
  · dsimp only
    split
    · split
      · exact le_refl maxT
      · split
        · split
          · exact le_refl maxT
          · split
            · exact le_refl maxT
            · dsimp only
              refine le_trans ?_ (blockScan_ge _ _ _ _ _ _ _)
              split <;> omega
        · exact le_refl maxT
    · exact le_refl maxT

theorem scanTailLoop_ge {w : List Nat} {lenVar : Int} :
    ∀ (fuel : Nat) (i : Int) (found : Bool) (maxT : Int) (res : Bool × Int),
      scanTailLoop w lenVar fuel i found maxT = .ok res → maxT ≤ res.2 := by
  intro fuel
  induction fuel with
  | zero =>
    intro i found maxT res h
    simp only [scanTailLoop, Except.ok.injEq] at h
    subst h
    exact le_refl maxT
  | succ n ih =>
    intro i found maxT res h
    unfold scanTailLoop at h
    split at h
    · cases hg : getUint32BE w i with
      | error e => simp only [hg] at h; exact Except.noConfusion h
      | ok u32 =>
        simp only [hg] at h
        split at h
        · exact le_trans (processCandidate_ge w lenVar i found maxT) (ih _ _ _ _ h)
        · exact ih _ _ _ _ h
    · simp only [Except.ok.injEq] at h
      subst h
      exact le_refl maxT

theorem scanTail_nonneg {r : Reader} {fileSize : Int} {scale : Nat} {q : ℚ}
    (h : scanTail r fileSize scale = .ok (some q)) : 0 ≤ q := by
  unfold scanTail at h
  dsimp only at h
  split at h
  · simp only [Except.ok.injEq] at h
    exact Option.noConfusion h
  · cases hl : scanTailLoop (r.read (max 0 (fileSize - 2097152))
        (fileSize - max 0 (fileSize - 2097152)))
        (fileSize - max 0 (fileSize - 2097152))
        ((fileSize - max 0 (fileSize - 2097152)) - 4).toNat 0 false 0 with
    | error e => simp only [hl] at h; exact Except.noConfusion h
    | ok p =>
      have hge : (0 : Int) ≤ p.2 := scanTailLoop_ge _ _ _ _ _ hl
      simp only [hl] at h
      split at h
      · simp only [Except.ok.injEq] at h
        exact Option.noConfusion h
      · simp only [Except.ok.injEq, Option.some.injEq] at h
        subst h
        apply div_nonneg _ (by norm_num)
        exact mul_nonneg (by exact_mod_cast hge) (by positivity)

theorem scanCues_nonneg {r : Reader} {off : Int} {scale : Nat} {q : ℚ}
    (h : scanCues r off scale = .ok (some q)) : 0 ≤ q := by
  unfold scanCues at h
  cases hh : readElementHeader r off with
  | error e => simp only [hh] at h; exact Except.noConfusion h
  | ok hdr =>
    simp only [hh] at h
    split at h
    · simp only [Except.ok.injEq] at h
      exact Option.noConfusion h
    · cases hl : scanCuesLoop r (off + hdr.headerSize + hdr.size) hdr.size.toNat
          (off + hdr.headerSize) 0 with
      | error e => simp only [hl] at h; exact Except.noConfusion h
      | ok mt =>
        simp only [hl, Except.ok.injEq, Option.some.injEq] at h
        subst h
        positivity

/-- C8 (amended): a duration resolved by the Cues tier or the tail tier is a
non-negative number; only tier 1, which passes the declared Duration float
through, can produce a negative duration.  Stated at the parseWebm level:
whenever the declared Info duration is not truthy (absent, zero or NaN), any
resolved duration is a non-negative rational. -/
theorem claim8_tier23_nonneg (r : Reader) (m : WebmMeta) (f : JSFloat)
    (h1 : parseWebm r = .ok m)
    (h2 : jsTruthy m.info.duration = false)
    (h3 : m.duration = some f) :
    ∃ q : ℚ, f = .num q ∧ 0 ≤ q := by
  unfold parseWebm at h1
  cases hH : scanHeader r with
  | error e => simp only [hH] at h1; exact Except.noConfusion h1
  | ok hr =>
    simp only [hH] at h1
    cases hd : hr.info.duration with
    | none =>
      simp only [hd] at h1
      cases hco : hr.cuesOffset with
      | some co =>
        simp only [hco] at h1
        cases hC : scanCues r co hr.info.timecodeScale with
        | error e => simp only [hC] at h1; exact Except.noConfusion h1
        | ok cq =>
          simp only [hC] at h1
          cases cq with
          | some q =>
            simp only [Option.map_some'] at h1
            cases Except.ok.inj h1
            simp only [Option.some.injEq] at h3
            exact ⟨q, h3.symm, scanCues_nonneg hC⟩
          | none =>
            simp only [Option.map_none'] at h1
            cases hT : scanTail r r.getSize hr.info.timecodeScale with
            | error e => simp only [hT] at h1; exact Except.noConfusion h1
            | ok tq =>
              simp only [hT] at h1
              cases tq with
              | some q =>
                simp only [Option.map_some'] at h1
                cases Except.ok.inj h1
                simp only [Option.some.injEq] at h3
                exact ⟨q, h3.symm, scanTail_nonneg hT⟩
              | none =>
                simp only [Option.map_none'] at h1
                cases Except.ok.inj h1
                exact Option.noConfusion h3
      | none =>
        simp only [hco] at h1
        cases hT : scanTail r r.getSize hr.info.timecodeScale with
        | error e => simp only [hT] at h1; exact Except.noConfusion h1
        | ok tq =>
          simp only [hT] at h1
          cases tq with
          | some q =>
            simp only [Option.map_some'] at h1
            cases Except.ok.inj h1
            simp only [Option.some.injEq] at h3
            exact ⟨q, h3.symm, scanTail_nonneg hT⟩
          | none =>
            simp only [Option.map_none'] at h1
            cases Except.ok.inj h1
            exact Option.noConfusion h3
    | some d =>
      by_cases htr : jsTruthy (some d) = true
      · exfalso
        simp only [hd, htr, if_true] at h1
        cases Except.ok.inj h1
        dsimp only at h2
        rw [hd, htr] at h2
        exact Bool.noConfusion h2
      · rw [Bool.not_eq_true] at htr
        simp only [hd, htr, Bool.false_eq_true, if_false] at h1
        cases hco : hr.cuesOffset with
        | some co =>
          simp only [hco] at h1
          cases hC : scanCues r co hr.info.timecodeScale with
          | error e => simp only [hC] at h1; exact Except.noConfusion h1
          | ok cq =>
            simp only [hC] at h1
            cases cq with
            | some q =>
              simp only [Option.map_some'] at h1
              cases Except.ok.inj h1
              simp only [Option.some.injEq] at h3
              exact ⟨q, h3.symm, scanCues_nonneg hC⟩
            | none =>
              simp only [Option.map_none'] at h1
              cases hT : scanTail r r.getSize hr.info.timecodeScale with
              | error e => simp only [hT] at h1; exact Except.noConfusion h1
              | ok tq =>
                simp only [hT] at h1
                cases tq with
                | some q =>
                  simp only [Option.map_some'] at h1
                  cases Except.ok.inj h1
                  simp only [Option.some.injEq] at h3
                  exact ⟨q, h3.symm, scanTail_nonneg hT⟩
                | none =>
                  simp only [Option.map_none'] at h1
                  cases Except.ok.inj h1
                  exact Option.noConfusion h3
        | none =>
          simp only [hco] at h1
          cases hT : scanTail r r.getSize hr.info.timecodeScale with
          | error e => simp only [hT] at h1; exact Except.noConfusion h1
          | ok tq =>
            simp only [hT] at h1
            cases tq with
            | some q =>
              simp only [Option.map_some'] at h1
              cases Except.ok.inj h1
              simp only [Option.some.injEq] at h3
              exact ⟨q, h3.symm, scanTail_nonneg hT⟩
            | none =>
              simp only [Option.map_none'] at h1
              cases Except.ok.inj h1
              exact Option.noConfusion h3

/-- Witness for C8 on the Cues-resolved fixture: declared duration absent,
resolved duration 2 ≥ 0. -/
theorem claim8_witness :
    jsTruthy (initInfo).duration = false
    ∧ ∃ q : ℚ, JSFloat.num 2 = .num q ∧ 0 ≤ q :=
  ⟨by decide,
   claim8_tier23_nonneg (createBufferReader cuesFile2000)
     ⟨some (JSFloat.num 2), 16, MIME_BASE, initInfo, []⟩ (JSFloat.num 2)
     (by decide) (by decide) rfl⟩

/-- Validation predicate a Cluster-signature candidate must pass before the
tail scan sets its `found` flag: decodable size VINT, room for a first
child, that child is a Timecode element with a decodable size VINT, and a
timecode value read that does not run off the view. -/
def candValidB (w : List Nat) (lenVar i : Int) : Bool :=
  match readVint w (i + 4) with
  | .error _ => false
  | .ok sz =>
    if i + 4 + sz.length + 4 ≤ lenVar then
      match readID w (i + 4 + sz.length) with
      | .error _ => false
      | .ok fid =>
        if fid.value = IDS.TIMECODE then
          match readVint w (i + 4 + sz.length + fid.length) with
          | .error _ => false
          | .ok tcsz =>
            match accumTimecode w lenVar tcsz.value.toNat
                (i + 4 + sz.length + fid.length + tcsz.length) 0 with
            | .error _ => false
            | .ok _ => true
        else false
    else false

theorem processCandidate_found (w : List Nat) (lenVar i : Int) (found : Bool) (maxT : Int) :
    (processCandidate w lenVar i found maxT).1 = (found || candValidB w lenVar i) := by
  unfold processCandidate candValidB
  cases hv : readVint w (i + 4) with
  | error e => simp
  | ok sz =>
    dsimp only
    by_cases hcc : i + 4 + sz.length + 4 ≤ lenVar
    · rw [if_pos hcc, if_pos hcc]
      cases hid : readID w (i + 4 + sz.length) with
      | error e => simp
      | ok fid =>
        dsimp only
        by_cases hfv : fid.value = IDS.TIMECODE
        · rw [if_pos hfv, if_pos hfv]
          cases htc : readVint w (i + 4 + sz.length + fid.length) with
          | error e => simp
          | ok tcsz =>
            dsimp only
            cases hac : accumTimecode w lenVar tcsz.value.toNat
                (i + 4 + sz.length + fid.length + tcsz.length) 0 with
            | error e => simp
            | ok tc => simp
        · rw [if_neg hfv, if_neg hfv]
          simp
    · rw [if_neg hcc, if_neg hcc]
      simp

theorem scanTailLoop_found {w : List Nat} {lenVar : Int} :
    ∀ (fuel : Nat) (i : Int) (found : Bool) (maxT : Int) (res : Bool × Int),
      scanTailLoop w lenVar fuel i found maxT = .ok res →
      (res.1 = true ↔ (found = true ∨ ∃ k : Nat, k < fuel ∧ i + (k : Int) < lenVar - 4
        ∧ getUint32BE w (i + (k : Int)) = .ok IDS.CLUSTER
        ∧ candValidB w lenVar (i + (k : Int)) = true)) := by
  intro fuel
  induction fuel with
  | zero =>
    intro i found maxT res h
    simp only [scanTailLoop, Except.ok.injEq] at h
    subst h
    constructor
    · exact fun hf => Or.inl hf
    · rintro (hf | ⟨k, hk, _⟩)
      · exact hf
      · omega
  | succ n ih =>
    intro i found maxT res h
    have hshift : ∀ k : Nat, i + ((k + 1 : Nat) : Int) = (i + 1) + (k : Int) := by
      intro k; push_cast; ring
    unfold scanTailLoop at h
    split at h
    · rename_i hlt
      cases hg : getUint32BE w i with
      | error e => simp only [hg] at h; exact Except.noConfusion h
      | ok u32 =>
        simp only [hg] at h
        split at h
        · rename_i hcl
          subst hcl
          rw [ih _ _ _ _ h, processCandidate_found, Bool.or_eq_true]
          have hzero : i + ((0 : Nat) : Int) = i := by simp
          constructor
          · rintro ((hf | hc) | ⟨k, hk, hbound, hgk, hck⟩)
            · exact Or.inl hf
            · exact Or.inr ⟨0, by omega, by rw [hzero]; exact hlt,
                by rw [hzero]; exact hg, by rw [hzero]; exact hc⟩
            · exact Or.inr ⟨k + 1, by omega, by rw [hshift]; exact hbound,
                by rw [hshift]; exact hgk, by rw [hshift]; exact hck⟩
          · rintro (hf | ⟨k, hk, hbound, hgk, hck⟩)
            · exact Or.inl (Or.inl hf)
            · cases k with
              | zero =>
                rw [hzero] at hck
                exact Or.inl (Or.inr hck)
              | succ j =>
                rw [hshift] at hbound hgk hck
                exact Or.inr ⟨j, by omega, hbound, hgk, hck⟩
        · rename_i hcl
          rw [ih _ _ _ _ h]
          have hzero : i + ((0 : Nat) : Int) = i := by simp
          constructor
          · rintro (hf | ⟨k, hk, hbound, hgk, hck⟩)
            · exact Or.inl hf
            · exact Or.inr ⟨k + 1, by omega, by rw [hshift]; exact hbound,
                by rw [hshift]; exact hgk, by rw [hshift]; exact hck⟩
          · rintro (hf | ⟨k, hk, hbound, hgk, hck⟩)
            · exact Or.inl hf
            · cases k with
              | zero =>
                exfalso
                rw [hzero] at hgk
                rw [hg] at hgk
                exact hcl (Except.ok.inj hgk)
              | succ j =>
                rw [hshift] at hbound hgk hck
                exact Or.inr ⟨j, by omega, hbound, hgk, hck⟩
    · rename_i hge
      simp only [Except.ok.injEq] at h
      subst h
      constructor
      · exact fun hf => Or.inl hf
      · rintro (hf | ⟨k, hk, hbound, _, _⟩)
        · exact hf
        · exfalso; omega

/-- Offset where the tail scan's window begins. -/
def tailStart (fileSize : Int) : Int := max 0 (fileSize - 2097152)

/-- The window of bytes the tail scan reads (the last min(fileSize, 2 MiB)). -/
def tailWindow (r : Reader) (fileSize : Int) : List Nat :=
  r.read (tailStart fileSize) (fileSize - tailStart fileSize)

/-- C3 (amended): the tail resync scanner scans the byte positions i with
i + 4 strictly below the window length for the 4-byte Cluster signature, and
it returns "not found" if and only if NO position holds a validated
candidate — a signature match followed by a decodable size whose first child
is a Timecode element (not merely a signature match anywhere); whenever at
least one candidate validates it returns the maximum reachable timecode
converted as maxTicks*timecodeScale/1e9. -/
theorem claim3_null_iff_no_validated_candidate (r : Reader) (fileSize : Int)
    (scale : Nat) (res : Option ℚ)
    (hpos : 0 < fileSize - tailStart fileSize)
    (h : scanTail r fileSize scale = .ok res) :
    (res = none ↔ ¬∃ k : Nat, (k : Int) < (fileSize - tailStart fileSize) - 4
      ∧ getUint32BE (tailWindow r fileSize) (k : Int) = .ok IDS.CLUSTER
      ∧ candValidB (tailWindow r fileSize) (fileSize - tailStart fileSize) (k : Int) = true) := by
  unfold tailStart at hpos
  unfold tailStart tailWindow
  unfold scanTail at h
  dsimp only at h
  rw [if_neg (by omega)] at h
  cases hl : scanTailLoop (r.read (max 0 (fileSize - 2097152))
      (fileSize - max 0 (fileSize - 2097152)))
      (fileSize - max 0 (fileSize - 2097152))
      ((fileSize - max 0 (fileSize - 2097152)) - 4).toNat 0 false 0 with
  | error e => simp only [hl] at h; exact Except.noConfusion h
  | ok p =>
    simp only [hl] at h
    have hfound := scanTailLoop_found _ 0 false 0 p hl
    split at h
    · rename_i hp
      simp only [Except.ok.injEq] at h
      subst h
      refine iff_of_true rfl ?_
      rintro ⟨k, hk, hgk, hck⟩
      have : p.1 = true := by
        refine hfound.mpr (Or.inr ⟨k, by omega, ?_, ?_, ?_⟩)
        · show (0 : Int) + (k : Int) < _
          omega
        · show getUint32BE _ ((0 : Int) + (k : Int)) = _
          rw [zero_add]; exact hgk
        · show candValidB _ _ ((0 : Int) + (k : Int)) = true
          rw [zero_add]; exact hck
      rw [hp] at this
      exact Bool.noConfusion this
    · rename_i hp
      have hp1 : p.1 = true := by
        cases hb : p.1 with
        | false => exact absurd hb hp
        | true => rfl
      simp only [Except.ok.injEq] at h
      subst h
      refine iff_of_false (fun hc => Option.noConfusion hc) (not_not_intro ?_)
      rcases hfound.mp hp1 with hf | ⟨k, hk, hbound, hgk, hck⟩
      · exact Bool.noConfusion hf
      · rw [zero_add] at hbound hgk hck
        exact ⟨k, by omega, hgk, hck⟩

/-- Witness for C3 at a window holding one validated Cluster candidate. -/
theorem claim3_witness :
    scanTail (createBufferReader smallClusterFile) 9 1000000 = .ok (some (1 / 200))
    ∧ ((some (1 / 200 : ℚ) = none) ↔ ¬∃ k : Nat, (k : Int) < (9 : Int) - tailStart 9 - 4
        ∧ getUint32BE (tailWindow (createBufferReader smallClusterFile) 9) (k : Int)
            = .ok IDS.CLUSTER
        ∧ candValidB (tailWindow (createBufferReader smallClusterFile) 9)
            ((9 : Int) - tailStart 9) (k : Int) = true) :=
  ⟨by decide,
   claim3_null_iff_no_validated_candidate (createBufferReader smallClusterFile) 9 1000000
     (some (1 / 200)) (by decide) (by decide)⟩
